import Mathlib

/-!
Verification development for the dual-stack discovery layer
(`crates/net/discv5`): the record-filter framework (`filter.rs`) and the
discv5-with-discv4-downgrade handle and merged update stream (`lib.rs`).

The Rust source is shallowly embedded: records are association lists of
key-value pairs together with their contactable-address information,
streams are modelled as explicit state machines stepped by `poll`
functions, and external fallible operations (record conversion, RLP
decoding of fork ids, identity-key translation) are passed in as function
parameters, since those collaborators live outside this crate.
-/

/-- Fork identifier: a hash and a next-fork block-or-time number
(`reth_primitives::ForkId`, external to this crate; the spec describes it
as a pair of a 4-byte hash and a number, equal iff both fields match). -/
structure ForkId where
  hash : Nat
  next : Nat
deriving DecidableEq

/-- Rendering of a `ForkId` used by the `Debug`-format interpolation in
`MustIncludeFork::ignore_reason`. Modelled from the spec: the derived
debug formatter of the external fork-id type prints both fields; any
injective rendering serves the reason-string claims. -/
def ForkId.debugFmt (f : ForkId) : String :=
  "ForkId \x7b hash: " ++ toString f.hash ++ ", next: " ++ toString f.next ++ " \x7d"

/-- Node record (`discv5::Enr`, external): a signed key-value record.
`kv` holds the raw RLP value bytes per key (as read by `get_raw_rlp`);
`ip4` and `ip6` hold the contactable socket address per address family,
as read by `discv5::IpMode::get_contactable_addr`. -/
structure Enr where
  kv : List (String × List Nat)
  ip4 : Option Nat
  ip6 : Option Nat
deriving DecidableEq

/-- `Enr::get_raw_rlp`: raw value bytes stored under a key, if any. -/
def Enr.get_raw_rlp (enr : Enr) (key : String) : Option (List Nat) :=
  enr.kv.lookup key

/-- Modelled from the spec: the `NetworkRef::ETH` chain-name key. `NetworkRef`
is code of this repository outside the shown files; the unit tests pair
`b"eth"` with `NetworkRef::ETH` on the same entry, fixing its value. -/
def NetworkRef.ETH : String := "eth"

/-- Modelled from the spec: the `NetworkRef::ETH2` beacon-chain key, the
fixed second key checked unconditionally by `MustNotIncludeChains`. -/
def NetworkRef.ETH2 : String := "eth2"

/-- Outcome of applying filtering rules on a node record (`FilterOutcome`). -/
inductive FilterOutcome where
  | Ok : FilterOutcome
  | OkReturnForkId : ForkId → FilterOutcome
  | Ignore : String → FilterOutcome
deriving DecidableEq

/-- `FilterOutcome::is_ok`: true exactly for the `Ok` variant. -/
def FilterOutcome.is_ok : FilterOutcome → Bool
  | FilterOutcome.Ok => true
  | _ => false

/-- Filter requiring that peers advertise belonging to some chain
(`MustIncludeChain`); holds the chain-name key. -/
structure MustIncludeChain where
  chain : String
deriving DecidableEq

/-- `MustIncludeChain::ignore_reason`. -/
def MustIncludeChain.ignore_reason (f : MustIncludeChain) : String :=
  f.chain ++ " fork required"

/-- `MustIncludeChain::filter`: ignore when the record has no entry under
the chain key, otherwise admit. -/
def MustIncludeChain.filter (f : MustIncludeChain) (enr : Enr) : FilterOutcome :=
  if (enr.get_raw_rlp f.chain).isNone then
    FilterOutcome.Ignore f.ignore_reason
  else
    FilterOutcome.Ok

/-- Filter requiring that peers not advertise certain chains
(`MustNotIncludeChains`); the `DashSet` of disallowed chains is modelled
as the list of its elements in iteration order. -/
structure MustNotIncludeChains where
  chains : List MustIncludeChain
deriving DecidableEq

/-- `MustNotIncludeChains::ignore_reason`: configured chain names,
comma-joined, followed by the fixed suffix. -/
def MustNotIncludeChains.ignore_reason (f : MustNotIncludeChains) : String :=
  String.intercalate "," (f.chains.map MustIncludeChain.chain) ++ " forks not allowed"

/-- `MustNotIncludeChains::filter`: ignore when any configured chain's
sub-filter admits the record, or when the record carries an entry under
the fixed `NetworkRef::ETH2` key; otherwise admit. -/
def MustNotIncludeChains.filter (f : MustNotIncludeChains) (enr : Enr) : FilterOutcome :=
  if f.chains.any (fun c => (c.filter enr).is_ok) then
    FilterOutcome.Ignore f.ignore_reason
  else if (enr.get_raw_rlp NetworkRef.ETH2).isSome then
    FilterOutcome.Ignore f.ignore_reason
  else
    FilterOutcome.Ok

/-- Filter requiring that peers advertise a specific fork
(`MustIncludeFork`): a chain sub-filter plus a required fork id. -/
structure MustIncludeFork where
  chain : MustIncludeChain
  fork_id : ForkId
deriving DecidableEq

/-- `MustIncludeFork::ignore_reason`. -/
def MustIncludeFork.ignore_reason (f : MustIncludeFork) : String :=
  f.chain.chain ++ " fork " ++ f.fork_id.debugFmt ++ " required"

/-- `MustIncludeFork::filter`. The external fork-id RLP codec
(`ForkId::decode`) is passed in as `decode`; `none` models a decoding
error. If the chain entry is absent the result is `Ignore` with the
inner chain filter's reason; if the bytes decode to exactly the required
fork id the decoded value is admitted via `OkReturnForkId`; otherwise
`Ignore` with this filter's own reason. -/
def MustIncludeFork.filter (decode : List Nat → Option ForkId) (f : MustIncludeFork)
    (enr : Enr) : FilterOutcome :=
  match enr.get_raw_rlp f.chain.chain with
  | none => FilterOutcome.Ignore f.chain.ignore_reason
  | some fork_id_bytes =>
    match decode fork_id_bytes with
    | some fork_id =>
      if fork_id = f.fork_id then
        FilterOutcome.OkReturnForkId fork_id
      else
        FilterOutcome.Ignore f.ignore_reason
    | none => FilterOutcome.Ignore f.ignore_reason

example :
    MustIncludeFork.filter (fun _ => some ⟨1, 2⟩) ⟨⟨"eth"⟩, ⟨1, 2⟩⟩
      ⟨[("eth", [0])], none, none⟩ = FilterOutcome.OkReturnForkId ⟨1, 2⟩ := by decide

example :
    MustIncludeFork.filter (fun _ => none) ⟨⟨"eth"⟩, ⟨1, 2⟩⟩ ⟨[], none, none⟩
      = FilterOutcome.Ignore "eth fork required" := by decide

example :
    MustNotIncludeChains.filter ⟨[⟨"eth"⟩]⟩ ⟨[("eth2", [])], none, none⟩
      = FilterOutcome.Ignore "eth forks not allowed" := by decide

/-- Peer descriptor from an external source
(`reth_discv4::NodeFromExternalSource`, external crate): either a signed
record (the `Enr` variant, over a caller-chosen record type `α`) or a
non-record descriptor, abstracted by a tag. -/
inductive NodeFromExternalSource (α : Type) where
  | enr : α → NodeFromExternalSource α
  | nonEnr : Nat → NodeFromExternalSource α
deriving DecidableEq

/-- RLP decoder error (`rlp::DecoderError`, external), the error type of
the record conversion in `add_node_to_routing_table`. -/
inductive DecoderError where
  | mk : Nat → DecoderError
deriving DecidableEq

/-- `Discv5WithDiscv4Downgrade::add_node_to_routing_table`. The external
conversion of a signed record into the discv5-native record
(`EnrCombinedKeyWrapper::try_into`) is passed in as `tryInto`, and the
discv5 table insertion (`Discv5::add_enr`) as `add_enr`. A conversion
failure propagates through the source's question-mark operator; the
insertion's result is bound to the wildcard and discarded; a non-record
descriptor is not forwarded and the call returns success. -/
def add_node_to_routing_table {α β : Type}
    (tryInto : α → Except DecoderError β) (add_enr : β → Except String Unit)
    (node_record : NodeFromExternalSource α) : Except DecoderError Unit :=
  match node_record with
  | NodeFromExternalSource.enr enr =>
    match tryInto enr with
    | Except.error e => Except.error e
    | Except.ok enr5 =>
      let _ := add_enr enr5
      Except.ok ()
  | NodeFromExternalSource.nonEnr _ => Except.ok ()

/-- Uncompressed peer identity (`reth_primitives::PeerId`). -/
structure PeerId where
  id : Nat
deriving DecidableEq

/-- Compressed discv5 node identity (`discv5::enr::NodeId`, external). -/
structure NodeId5 where
  id : Nat
deriving DecidableEq

/-- One table-mutating call issued by the handle's ban operations, in
issue order: a discv5 identity ban (`Discv5::ban_node`), a discv5 IP ban
(`Discv5::ban_ip`), or the forwarded legacy call
(`Discv4::ban_peer_by_ip_and_node_id`, which carries both the untranslated
identity and the IP to the legacy subsystem). -/
inductive BanEffect where
  | discv5_ban_node : NodeId5 → BanEffect
  | discv5_ban_ip : Nat → BanEffect
  | discv4_ban_peer_by_ip_and_node_id : PeerId → Nat → BanEffect
deriving DecidableEq

/-- `Discv5WithDiscv4Downgrade::ban_peer_by_ip_and_node_id`, as the list
of table-mutating calls it issues. The external identity-key translation
(`enr::uncompressed_to_compressed_id`) is passed in as `translate`; when
it fails, the discv5 identity ban alone is skipped. -/
def ban_peer_by_ip_and_node_id (translate : PeerId → Except String NodeId5)
    (peer_id : PeerId) (ip : Nat) : List BanEffect :=
  (match translate peer_id with
   | Except.ok node_id_discv5 => [BanEffect.discv5_ban_node node_id_discv5]
   | Except.error _ => []) ++
  [BanEffect.discv5_ban_ip ip, BanEffect.discv4_ban_peer_by_ip_and_node_id peer_id ip]

/-- Result of one `poll` call: either suspension or a ready value
(`std::task::Poll`). -/
inductive MPoll (α : Type) where
  | pending : MPoll α
  | ready : α → MPoll α
deriving DecidableEq

/-- A discv5 event (`discv5::Event`, external): the session-established
variant carries the peer's record and its socket address (the socket
abstracted by a tag); all other variants are abstracted by a tag, since
the merged stream only distinguishes `SessionEstablished`. -/
inductive Discv5Event where
  | sessionEstablished : Enr → Nat → Discv5Event
  | otherEvent : Nat → Discv5Event
deriving DecidableEq

/-- A legacy discv4 update (`reth_discv4::DiscoveryUpdate`, external),
abstracted by a tag: the merged stream never inspects it. -/
structure DiscoveryUpdate where
  tag : Nat
deriving DecidableEq

/-- `DiscoveryUpdateV5`: the shared tagged-union update type. -/
inductive DiscoveryUpdateV5 where
  | V5 : Discv5Event → DiscoveryUpdateV5
  | V4 : DiscoveryUpdate → DiscoveryUpdateV5
deriving DecidableEq

/-- `UpdateStream::poll_next`: poll the wrapped source once; forward
suspension unchanged, else map the optional item through the
origin-tagging conversion `conv` (`DiscoveryUpdateV5::from`). The wrapped
source is an arbitrary state machine `step` over states `σ`. -/
def UpdateStream.poll_next {σ I : Type} (conv : I → DiscoveryUpdateV5)
    (step : σ → MPoll (Option I) × σ) (s : σ) : MPoll (Option DiscoveryUpdateV5) × σ :=
  match step s with
  | (MPoll.pending, s1) => (MPoll.pending, s1)
  | (MPoll.ready o, s1) => (MPoll.ready (o.map conv), s1)

/-- Trace of the first `n` poll results of a raw source. -/
def sourceTrace {σ I : Type} (step : σ → MPoll (Option I) × σ) :
    Nat → σ → List (MPoll (Option I))
  | 0, _ => []
  | n + 1, s =>
    match step s with
    | (p, s1) => p :: sourceTrace step n s1

/-- Trace of the first `n` poll results of `UpdateStream` over a source. -/
def updateStreamTrace {σ I : Type} (conv : I → DiscoveryUpdateV5)
    (step : σ → MPoll (Option I) × σ) : Nat → σ → List (MPoll (Option DiscoveryUpdateV5))
  | 0, _ => []
  | n + 1, s =>
    match UpdateStream.poll_next conv step s with
    | (p, s1) => p :: updateStreamTrace conv step n s1

/-- Item-wise image of a poll result under the origin-tagging conversion:
suspension and end-of-stream map to themselves. -/
def pollMapConv {I : Type} (conv : I → DiscoveryUpdateV5) :
    MPoll (Option I) → MPoll (Option DiscoveryUpdateV5)
  | MPoll.pending => MPoll.pending
  | MPoll.ready o => MPoll.ready (o.map conv)

/-- Side preference of `futures::stream::select`'s round-robin strategy
(`PollNext`): `left` is the discv5 stream, `right` the discv4 stream. -/
inductive PollNext where
  | left : PollNext
  | right : PollNext
deriving DecidableEq

/-- `PollNext::other`. -/
def PollNext.other : PollNext → PollNext
  | PollNext.left => PollNext.right
  | PollNext.right => PollNext.left

/-- Termination bookkeeping of `futures::stream::select_with_strategy`
(`InternalState`): which underlying streams have already ended. -/
inductive SelectInternalState where
  | start : SelectInternalState
  | firstStreamTerminated : SelectInternalState
  | secondStreamTerminated : SelectInternalState
  | bothStreamsTerminated : SelectInternalState
deriving DecidableEq

/-- State of `select(discv5_event_stream, discv4_update_stream)` as built
by `merge_discovery_streams`: the remaining items of each wrapped
receiver stream (the channels' senders produce these and close, so each
side is a finite queue that then ends), the round-robin strategy state
`last` (initially `left`, the default), and the termination bookkeeping. -/
structure SelState where
  left : List Discv5Event
  right : List DiscoveryUpdate
  last : PollNext
  internal : SelectInternalState
deriving DecidableEq

/-- One poll of the select combinator, following
`futures::stream::select_with_strategy::poll_next` with the round-robin
strategy: while both streams live, the strategy toggles `last` and the
preferred side is polled first; a side that returns end-of-stream is
marked terminated and the other side is polled; after one side has
terminated only the other is polled. The underlying receiver streams
never suspend in this model (a closed channel queue), so the result is
always ready: `some` an item or `none` for end-of-stream. -/
def selectPoll (s : SelState) : Option DiscoveryUpdateV5 × SelState :=
  match s.internal with
  | SelectInternalState.bothStreamsTerminated => (none, s)
  | SelectInternalState.firstStreamTerminated =>
    match s.right with
    | u :: rest => (some (DiscoveryUpdateV5.V4 u), { s with right := rest })
    | [] => (none, { s with internal := SelectInternalState.bothStreamsTerminated })
  | SelectInternalState.secondStreamTerminated =>
    match s.left with
    | e :: rest => (some (DiscoveryUpdateV5.V5 e), { s with left := rest })
    | [] => (none, { s with internal := SelectInternalState.bothStreamsTerminated })
  | SelectInternalState.start =>
    match s.last with
    | PollNext.left =>
      match s.left with
      | e :: rest =>
        (some (DiscoveryUpdateV5.V5 e),
          { s with left := rest, last := PollNext.right })
      | [] =>
        match s.right with
        | u :: rest =>
          (some (DiscoveryUpdateV5.V4 u),
            ⟨s.left, rest, PollNext.right, SelectInternalState.firstStreamTerminated⟩)
        | [] =>
          (none, ⟨s.left, s.right, PollNext.right,
            SelectInternalState.bothStreamsTerminated⟩)
    | PollNext.right =>
      match s.right with
      | u :: rest =>
        (some (DiscoveryUpdateV5.V4 u),
          { s with right := rest, last := PollNext.left })
      | [] =>
        match s.left with
        | e :: rest =>
          (some (DiscoveryUpdateV5.V5 e),
            ⟨rest, s.right, PollNext.left, SelectInternalState.secondStreamTerminated⟩)
        | [] =>
          (none, ⟨s.left, s.right, PollNext.left,
            SelectInternalState.bothStreamsTerminated⟩)

/-- State of the single-slot synchronization channel
(`tokio::sync::watch`): whether a receiver is still alive, and whether the
slot holds an unseen value. -/
structure WatchState where
  hasReceiver : Bool
  slot : Bool
deriving DecidableEq

/-- `watch::Sender::send`: succeeds and overwrites the single slot while a
receiver is alive; fails (returning the value) once all receivers dropped. -/
def watchSend (w : WatchState) : Bool × WatchState :=
  if w.hasReceiver then (true, { w with slot := true }) else (false, w)

/-- State of `MergedUpdateStream`: the inner select state plus the
`discv5_kbuckets_change_tx` watch channel. -/
structure MergedState where
  sel : SelState
  watch : WatchState
deriving DecidableEq

/-- Observable outcome of one `MergedUpdateStream::poll_next` call: the
returned poll value, the successor state, how many sends were attempted
on the synchronization channel during the call, whether a send succeeded,
and whether the call woke its own task (`cx.waker().wake_by_ref()`). -/
structure MergedPollResult where
  out : MPoll (Option DiscoveryUpdateV5)
  next : MergedState
  sendAttempts : Nat
  sendOk : Bool
  wokeSelf : Bool
deriving DecidableEq

/-- `MergedUpdateStream::poll_next`: poll the inner select; if the update
is a discv5 session-established event whose record has no IPv4-contactable
address but does have an IPv6-contactable one, wake the own task and
return pending without emitting; otherwise, for a session-established
event, send one synchronization signal (`notify_discv4_of_kbuckets_update`;
a failed send is only logged) and return the update; any other update is
returned unchanged with no side effect. -/
def mergedPollNext (st : MergedState) : MergedPollResult :=
  match selectPoll st.sel with
  | (some (DiscoveryUpdateV5.V5 (Discv5Event.sessionEstablished enr socket)), sel1) =>
    if (Enr.ip4 enr).isNone && !(Enr.ip6 enr).isNone then
      { out := MPoll.pending, next := { st with sel := sel1 },
        sendAttempts := 0, sendOk := false, wokeSelf := true }
    else
      match watchSend st.watch with
      | (sent, w1) =>
        { out := MPoll.ready (some (DiscoveryUpdateV5.V5
            (Discv5Event.sessionEstablished enr socket))),
          next := { sel := sel1, watch := w1 },
          sendAttempts := 1, sendOk := sent, wokeSelf := false }
  | (u, sel1) =>
    { out := MPoll.ready u, next := { st with sel := sel1 },
      sendAttempts := 0, sendOk := false, wokeSelf := false }

/-- Items emitted by the merged stream over at most `fuel` polls,
stopping at end-of-stream; a pending poll emits nothing and continues. -/
def mergedOutputs (st : MergedState) : Nat → List DiscoveryUpdateV5
  | 0 => []
  | n + 1 =>
    match mergedPollNext st with
    | r =>
      match r.out with
      | MPoll.pending => mergedOutputs r.next n
      | MPoll.ready none => []
      | MPoll.ready (some u) => u :: mergedOutputs r.next n

/-- State of the merged stream after `n` polls. -/
def mergedRunState (st : MergedState) : Nat → MergedState
  | 0 => st
  | n + 1 => mergedRunState (mergedPollNext st).next n

/-- Projection selecting discv5-originated items. -/
def projV5 : DiscoveryUpdateV5 → Option Discv5Event
  | DiscoveryUpdateV5.V5 e => some e
  | DiscoveryUpdateV5.V4 _ => none

/-- Projection selecting discv4-originated items. -/
def projV4 : DiscoveryUpdateV5 → Option DiscoveryUpdate
  | DiscoveryUpdateV5.V4 u => some u
  | DiscoveryUpdateV5.V5 _ => none

/-- The deferral test of `MergedUpdateStream::poll_next` on an event: a
session-established event whose record has no IPv4-contactable address
but does have an IPv6-contactable one. -/
def deferred : Discv5Event → Bool
  | Discv5Event.sessionEstablished enr _ => (Enr.ip4 enr).isNone && !(Enr.ip6 enr).isNone
  | Discv5Event.otherEvent _ => false

example :
    mergedOutputs
      ⟨⟨[Discv5Event.sessionEstablished ⟨[], none, some 1⟩ 0], [⟨7⟩],
        PollNext.left, SelectInternalState.start⟩, ⟨true, false⟩⟩ 5
      = [DiscoveryUpdateV5.V4 ⟨7⟩] := by decide

example :
    mergedOutputs
      ⟨⟨[Discv5Event.otherEvent 3], [⟨7⟩],
        PollNext.left, SelectInternalState.start⟩, ⟨true, false⟩⟩ 5
      = [DiscoveryUpdateV5.V5 (Discv5Event.otherEvent 3), DiscoveryUpdateV5.V4 ⟨7⟩] := by
  decide

/-- A string with a non-empty right append component is non-empty. -/
theorem append_ne_empty_of_right (s t : String) (ht : t.data ≠ []) : s ++ t ≠ "" := by
  intro h
  have hd : (s ++ t).data = [] := by rw [h]
  rw [String.data_append] at hd
  exact ht (List.append_eq_nil.mp hd).2

/-- C1: `MustIncludeFork::filter` — a record with no entry under the
chain key is ignored with the chain-required reason; an entry decoding to
exactly the required fork id is admitted via `OkReturnForkId` carrying the
decoded value; an entry that fails to decode or decodes to a different
fork id is ignored with the fork-required reason. -/
theorem C1_mustIncludeFork_filter_cases
    (decode : List Nat → Option ForkId) (f : MustIncludeFork) (enr : Enr) :
    (enr.get_raw_rlp f.chain.chain = none →
      MustIncludeFork.filter decode f enr
        = FilterOutcome.Ignore (f.chain.chain ++ " fork required")) ∧
    (∀ bs fid, enr.get_raw_rlp f.chain.chain = some bs → decode bs = some fid →
      fid = f.fork_id →
      MustIncludeFork.filter decode f enr = FilterOutcome.OkReturnForkId fid) ∧
    (∀ bs, enr.get_raw_rlp f.chain.chain = some bs →
      (decode bs = none ∨ ∃ fid, decode bs = some fid ∧ fid ≠ f.fork_id) →
      MustIncludeFork.filter decode f enr
        = FilterOutcome.Ignore
            (f.chain.chain ++ " fork " ++ f.fork_id.debugFmt ++ " required")) := by
  refine ⟨?_, ?_, ?_⟩
  · intro h
    simp [MustIncludeFork.filter, h, MustIncludeChain.ignore_reason]
  · intro bs fid hbs hdec heq
    subst heq
    simp [MustIncludeFork.filter, hbs, hdec]
  · intro bs hbs hdec
    rcases hdec with hnone | ⟨fid, hsome, hne⟩
    · simp [MustIncludeFork.filter, hbs, hnone, MustIncludeFork.ignore_reason]
    · simp [MustIncludeFork.filter, hbs, hsome, hne, MustIncludeFork.ignore_reason]

/-- Witness for C1 at concrete inputs: a record whose `eth` entry decodes
to the required fork id is admitted with that decoded value, and a record
missing the entry is ignored with the chain-required reason. -/
theorem C1_witness :
    MustIncludeFork.filter (fun _ => some ⟨1, 2⟩) ⟨⟨"eth"⟩, ⟨1, 2⟩⟩
        ⟨[("eth", [0])], none, none⟩ = FilterOutcome.OkReturnForkId ⟨1, 2⟩ ∧
    MustIncludeFork.filter (fun _ => some ⟨1, 2⟩) ⟨⟨"eth"⟩, ⟨1, 2⟩⟩ ⟨[], none, none⟩
        = FilterOutcome.Ignore ("eth" ++ " fork required") :=
  ⟨(C1_mustIncludeFork_filter_cases (fun _ => some ⟨1, 2⟩) ⟨⟨"eth"⟩, ⟨1, 2⟩⟩
        ⟨[("eth", [0])], none, none⟩).2.1 [0] ⟨1, 2⟩ (by decide) rfl rfl,
   (C1_mustIncludeFork_filter_cases (fun _ => some ⟨1, 2⟩) ⟨⟨"eth"⟩, ⟨1, 2⟩⟩
        ⟨[], none, none⟩).1 (by decide)⟩

/-- C5: `MustNotIncludeChains::filter` ignores every record carrying an
entry under the fixed `eth2` beacon-chain key (whether or not that key is
configured), ignores every record carrying an entry for any configured
chain, and admits a record carrying neither. -/
theorem C5_mustNotIncludeChains_filter_cases (f : MustNotIncludeChains) (enr : Enr) :
    ((enr.get_raw_rlp NetworkRef.ETH2).isSome →
      f.filter enr = FilterOutcome.Ignore f.ignore_reason) ∧
    (∀ c ∈ f.chains, (enr.get_raw_rlp c.chain).isSome →
      f.filter enr = FilterOutcome.Ignore f.ignore_reason) ∧
    ((∀ c ∈ f.chains, enr.get_raw_rlp c.chain = none) →
      enr.get_raw_rlp NetworkRef.ETH2 = none → f.filter enr = FilterOutcome.Ok) := by
  refine ⟨?_, ?_, ?_⟩
  · intro h2
    by_cases ha : f.chains.any (fun c => (c.filter enr).is_ok)
    · simp [MustNotIncludeChains.filter, ha]
    · simp [MustNotIncludeChains.filter, ha, h2]
  · intro c hc hsome
    obtain ⟨v, hv⟩ := Option.isSome_iff_exists.mp hsome
    have ha : f.chains.any (fun c => (c.filter enr).is_ok) = true := by
      refine List.any_eq_true.mpr ⟨c, hc, ?_⟩
      simp [MustIncludeChain.filter, hv, FilterOutcome.is_ok]
    simp [MustNotIncludeChains.filter, ha]
  · intro hall h2
    have ha : f.chains.any (fun c => (c.filter enr).is_ok) = false := by
      rw [List.any_eq_false]
      intro c hc
      simp [MustIncludeChain.filter, hall c hc, FilterOutcome.is_ok]
    simp [MustNotIncludeChains.filter, ha, h2]

/-- Witness for C5 at concrete inputs: a record advertising only `eth2`
is ignored by a filter configured with disallow set containing only
`eth`, and a record advertising neither key is admitted. -/
theorem C5_witness :
    MustNotIncludeChains.filter ⟨[⟨"eth"⟩]⟩ ⟨[("eth2", [])], none, none⟩
        = FilterOutcome.Ignore (MustNotIncludeChains.ignore_reason ⟨[⟨"eth"⟩]⟩) ∧
    MustNotIncludeChains.filter ⟨[⟨"eth"⟩]⟩ ⟨[("pancake", [])], none, none⟩
        = FilterOutcome.Ok :=
  ⟨(C5_mustNotIncludeChains_filter_cases ⟨[⟨"eth"⟩]⟩ ⟨[("eth2", [])], none, none⟩).1
      (by decide),
   (C5_mustNotIncludeChains_filter_cases ⟨[⟨"eth"⟩]⟩
        ⟨[("pancake", [])], none, none⟩).2.2 (by decide) (by decide)⟩

/-- C8 counterexample: on a record with no `eth` entry, `MustIncludeFork`
ignores with the inner chain filter's reason, which differs from this
filter's own `ignore_reason`. -/
theorem C8_counterexample :
    MustIncludeFork.filter (fun _ => none) ⟨⟨"eth"⟩, ⟨1, 2⟩⟩ ⟨[], none, none⟩
        = FilterOutcome.Ignore "eth fork required" ∧
    MustIncludeFork.ignore_reason ⟨⟨"eth"⟩, ⟨1, 2⟩⟩ ≠ "eth fork required" := by
  constructor
  · decide
  · decide

/-- C8 amended: every `Ignore` outcome of the three filters carries a
non-empty reason; for `MustIncludeChain` and `MustNotIncludeChains` the
reason equals that filter's `ignore_reason`; for `MustIncludeFork` it
equals its `ignore_reason` except in the absent-entry case, where it is
the inner chain filter's `ignore_reason` instead. -/
theorem C8_amended_ignore_reasons (enr : Enr) :
    (∀ (f : MustIncludeChain) (r : String), f.filter enr = FilterOutcome.Ignore r →
      r ≠ "" ∧ r = f.ignore_reason) ∧
    (∀ (f : MustNotIncludeChains) (r : String), f.filter enr = FilterOutcome.Ignore r →
      r ≠ "" ∧ r = f.ignore_reason) ∧
    (∀ (decode : List Nat → Option ForkId) (f : MustIncludeFork) (r : String),
      MustIncludeFork.filter decode f enr = FilterOutcome.Ignore r →
      r ≠ "" ∧
      (enr.get_raw_rlp f.chain.chain = none → r = f.chain.ignore_reason) ∧
      (enr.get_raw_rlp f.chain.chain ≠ none → r = f.ignore_reason)) := by
  refine ⟨?_, ?_, ?_⟩
  · intro f r h
    have hr : r = f.ignore_reason := by
      by_cases hn : (enr.get_raw_rlp f.chain).isNone
      · simp [MustIncludeChain.filter, hn] at h
        exact h.symm
      · simp [MustIncludeChain.filter, hn] at h
    refine ⟨?_, hr⟩
    rw [hr]
    exact append_ne_empty_of_right _ _ (by decide)
  · intro f r h
    have hr : r = f.ignore_reason := by
      by_cases ha : f.chains.any (fun c => (c.filter enr).is_ok)
      · simp [MustNotIncludeChains.filter, ha] at h
        exact h.symm
      · by_cases h2 : (enr.get_raw_rlp NetworkRef.ETH2).isSome
        · simp [MustNotIncludeChains.filter, ha, h2] at h
          exact h.symm
        · simp [MustNotIncludeChains.filter, ha, h2] at h
    refine ⟨?_, hr⟩
    rw [hr]
    exact append_ne_empty_of_right _ _ (by decide)
  · intro decode f r h
    cases hbs : enr.get_raw_rlp f.chain.chain with
    | none =>
      simp [MustIncludeFork.filter, hbs] at h
      refine ⟨?_, fun _ => h.symm, fun hne => absurd rfl hne⟩
      rw [← h]
      exact append_ne_empty_of_right _ _ (by decide)
    | some bs =>
      cases hdec : decode bs with
      | none =>
        simp [MustIncludeFork.filter, hbs, hdec] at h
        refine ⟨?_, fun habs => Option.noConfusion habs, fun _ => h.symm⟩
        rw [← h]
        exact append_ne_empty_of_right _ _ (by decide)
      | some fid =>
        by_cases he : fid = f.fork_id
        · simp [MustIncludeFork.filter, hbs, hdec, he] at h
        · simp [MustIncludeFork.filter, hbs, hdec, he] at h
          refine ⟨?_, fun habs => Option.noConfusion habs, fun _ => h.symm⟩
          rw [← h]
          exact append_ne_empty_of_right _ _ (by decide)

/-- Witness for the amended C8 at concrete inputs: the ignore outcome of
`MustIncludeFork` on a record lacking the chain entry carries the
non-empty reason pinned to the inner chain filter's `ignore_reason`, and
the ignore outcome of `MustNotIncludeChains` on a record advertising
`eth` carries the non-empty reason equal to that filter's
`ignore_reason`. -/
theorem C8_amended_witness :
    ("eth fork required" ≠ "" ∧
      "eth fork required" = MustIncludeChain.ignore_reason ⟨"eth"⟩) ∧
    ("eth forks not allowed" ≠ "" ∧
      "eth forks not allowed" = MustNotIncludeChains.ignore_reason ⟨[⟨"eth"⟩]⟩) :=
  ⟨⟨((C8_amended_ignore_reasons ⟨[], none, none⟩).2.2 (fun _ => none) ⟨⟨"eth"⟩, ⟨1, 2⟩⟩
        "eth fork required" (by decide)).1,
    ((C8_amended_ignore_reasons ⟨[], none, none⟩).2.2 (fun _ => none) ⟨⟨"eth"⟩, ⟨1, 2⟩⟩
        "eth fork required" (by decide)).2.1 (by decide)⟩,
   (C8_amended_ignore_reasons ⟨[("eth", [])], none, none⟩).2.1 ⟨[⟨"eth"⟩]⟩
     "eth forks not allowed" (by decide)⟩

/-- C4 counterexample: a signed-record descriptor whose conversion fails
makes `add_node_to_routing_table` return an error to the caller, not
success — the conversion failure propagates through the source's
question-mark operator. -/
theorem C4_counterexample :
    add_node_to_routing_table (fun (_ : Nat) => Except.error (DecoderError.mk 0))
        (fun (_ : Nat) => Except.ok ()) (NodeFromExternalSource.enr 0)
      = Except.error (DecoderError.mk 0) ∧
    add_node_to_routing_table (fun (_ : Nat) => Except.error (DecoderError.mk 0))
        (fun (_ : Nat) => Except.ok ()) (NodeFromExternalSource.enr 0)
      ≠ Except.ok () :=
  ⟨rfl, fun h => Except.noConfusion h⟩

/-- C4 amended: `add_node_to_routing_table` returns success for a
non-record descriptor and for a record whose conversion succeeds —
whatever the insertion outcome, which is discarded — but a record whose
conversion fails produces that error as the call's return value. -/
theorem C4_amended_add_node (α β : Type) (tryInto : α → Except DecoderError β)
    (add_enr : β → Except String Unit) :
    (∀ t, add_node_to_routing_table tryInto add_enr (NodeFromExternalSource.nonEnr t)
        = Except.ok ()) ∧
    (∀ e b, tryInto e = Except.ok b →
      add_node_to_routing_table tryInto add_enr (NodeFromExternalSource.enr e)
        = Except.ok ()) ∧
    (∀ e err, tryInto e = Except.error err →
      add_node_to_routing_table tryInto add_enr (NodeFromExternalSource.enr e)
        = Except.error err) := by
  refine ⟨fun t => rfl, ?_, ?_⟩
  · intro e b hb
    simp [add_node_to_routing_table, hb]
  · intro e err herr
    simp [add_node_to_routing_table, herr]

/-- Witness for the amended C4 at concrete inputs: success for a
converted record even when the insertion fails, and the propagated error
for a failing conversion. -/
theorem C4_amended_witness :
    add_node_to_routing_table (fun (_ : Nat) => Except.ok 5)
        (fun (_ : Nat) => Except.error "full") (NodeFromExternalSource.enr 0)
      = Except.ok () ∧
    add_node_to_routing_table (fun (_ : Nat) => Except.error (DecoderError.mk 1))
        (fun (_ : Nat) => Except.ok ()) (NodeFromExternalSource.enr 0)
      = Except.error (DecoderError.mk 1) :=
  ⟨(C4_amended_add_node Nat Nat (fun _ => Except.ok 5)
        (fun _ => Except.error "full")).2.1 0 5 rfl,
   (C4_amended_add_node Nat Nat (fun _ => Except.error (DecoderError.mk 1))
        (fun _ => Except.ok ())).2.2 0 (DecoderError.mk 1) rfl⟩

/-- C6: when the identity-key translation fails,
`ban_peer_by_ip_and_node_id` skips only the discv5 identity ban: the
issued calls are exactly the discv5 IP ban followed by the forwarded
legacy ban call carrying both the untranslated identity and the IP. -/
theorem C6_ban_translation_failure (translate : PeerId → Except String NodeId5)
    (peer_id : PeerId) (ip : Nat) (err : String)
    (h : translate peer_id = Except.error err) :
    ban_peer_by_ip_and_node_id translate peer_id ip
      = [BanEffect.discv5_ban_ip ip,
         BanEffect.discv4_ban_peer_by_ip_and_node_id peer_id ip] ∧
    ∀ n, BanEffect.discv5_ban_node n ∉ ban_peer_by_ip_and_node_id translate peer_id ip := by
  constructor
  · simp [ban_peer_by_ip_and_node_id, h]
  · intro n
    simp [ban_peer_by_ip_and_node_id, h]

/-- Witness for C6 at concrete inputs: with an always-failing translation
the IP ban and the legacy call are still issued, and no discv5 identity
ban is. -/
theorem C6_witness :
    ban_peer_by_ip_and_node_id (fun _ => Except.error "incompatible") ⟨3⟩ 9
      = [BanEffect.discv5_ban_ip 9,
         BanEffect.discv4_ban_peer_by_ip_and_node_id ⟨3⟩ 9] ∧
    BanEffect.discv5_ban_node ⟨3⟩
      ∉ ban_peer_by_ip_and_node_id (fun _ => Except.error "incompatible") ⟨3⟩ 9 :=
  ⟨(C6_ban_translation_failure (fun _ => Except.error "incompatible") ⟨3⟩ 9
      "incompatible" rfl).1,
   (C6_ban_translation_failure (fun _ => Except.error "incompatible") ⟨3⟩ 9
      "incompatible" rfl).2 ⟨3⟩⟩

/-- C10: `UpdateStream` is observationally the item-wise origin-tagging
conversion of its wrapped source: for every wrapped source and every
number of polls, its poll-result trace is exactly the source's trace with
each ready item mapped through the conversion — suspension and
end-of-stream forwarded unchanged, nothing buffered, dropped, duplicated
or reordered. -/
theorem C10_updateStream_is_mapped_source {σ I : Type}
    (conv : I → DiscoveryUpdateV5) (step : σ → MPoll (Option I) × σ)
    (n : Nat) (s : σ) :
    updateStreamTrace conv step n s = (sourceTrace step n s).map (pollMapConv conv) := by
  induction n generalizing s with
  | zero => rfl
  | succ n ih =>
    cases hs : step s with
    | mk p s1 =>
      cases p with
      | pending =>
        simp [updateStreamTrace, sourceTrace, UpdateStream.poll_next, hs, pollMapConv, ih]
      | ready o =>
        simp [updateStreamTrace, sourceTrace, UpdateStream.poll_next, hs, pollMapConv, ih]

/-- C2: when the next interleaved update is a discv5 session-established
event whose record has no IPv4-contactable address but does have an
IPv6-contactable one, `poll_next` wakes its own task and returns pending:
no event is emitted and no synchronization signal is sent on that call. -/
theorem C2_deferral_returns_pending (st : MergedState) (enr : Enr) (socket : Nat)
    (sel1 : SelState) (x : Nat)
    (h : selectPoll st.sel
      = (some (DiscoveryUpdateV5.V5 (Discv5Event.sessionEstablished enr socket)), sel1))
    (h4 : enr.ip4 = none) (h6 : enr.ip6 = some x) :
    (mergedPollNext st).out = MPoll.pending ∧
    (mergedPollNext st).wokeSelf = true ∧
    (mergedPollNext st).sendAttempts = 0 := by
  refine ⟨?_, ?_, ?_⟩ <;> simp [mergedPollNext, h, h4, h6]

/-- Witness for C2 at a concrete state: the head of the discv5 source is
a session-established event for a record with only an IPv6-contactable
address; the poll returns pending, wakes itself and sends nothing. -/
theorem C2_witness :
    (mergedPollNext ⟨⟨[Discv5Event.sessionEstablished ⟨[], none, some 1⟩ 0], [],
        PollNext.left, SelectInternalState.start⟩, ⟨true, false⟩⟩).out = MPoll.pending ∧
    (mergedPollNext ⟨⟨[Discv5Event.sessionEstablished ⟨[], none, some 1⟩ 0], [],
        PollNext.left, SelectInternalState.start⟩, ⟨true, false⟩⟩).wokeSelf = true ∧
    (mergedPollNext ⟨⟨[Discv5Event.sessionEstablished ⟨[], none, some 1⟩ 0], [],
        PollNext.left, SelectInternalState.start⟩, ⟨true, false⟩⟩).sendAttempts = 0 :=
  C2_deferral_returns_pending _ ⟨[], none, some 1⟩ 0
    ⟨[], [], PollNext.right, SelectInternalState.start⟩ 1 (by decide) rfl rfl

/-- C3: a discv5 session-established event that is not deferred (the
record has an IPv4-contactable address, or no IPv6-contactable address)
causes exactly one send attempt on the single-slot synchronization
channel before the event is returned; the send succeeds exactly while a
receiver is alive, and on failure the event is still returned unchanged. -/
theorem C3_signal_then_emit (st : MergedState) (enr : Enr) (socket : Nat)
    (sel1 : SelState)
    (h : selectPoll st.sel
      = (some (DiscoveryUpdateV5.V5 (Discv5Event.sessionEstablished enr socket)), sel1))
    (hnd : (enr.ip4).isSome ∨ enr.ip6 = none) :
    (mergedPollNext st).sendAttempts = 1 ∧
    (mergedPollNext st).sendOk = st.watch.hasReceiver ∧
    (mergedPollNext st).out
      = MPoll.ready (some (DiscoveryUpdateV5.V5
          (Discv5Event.sessionEstablished enr socket))) := by
  have hcp : ¬(enr.ip4 = none ∧ (enr.ip6).isSome = true) := by
    rintro ⟨h4, h6⟩
    rcases hnd with hs | hn
    · rw [h4] at hs
      simp at hs
    · rw [hn] at h6
      simp at h6
  cases hw : st.watch.hasReceiver <;>
    refine ⟨?_, ?_, ?_⟩ <;>
      simp [mergedPollNext, h, hcp, watchSend, hw]

/-- Witness for C3 at concrete states: a session-established event for an
IPv4-contactable record is emitted with one send attempt; with no
receiver alive the send fails but the event is still emitted. -/
theorem C3_witness :
    (mergedPollNext ⟨⟨[Discv5Event.sessionEstablished ⟨[], some 4, none⟩ 0], [],
        PollNext.left, SelectInternalState.start⟩, ⟨false, false⟩⟩).sendAttempts = 1 ∧
    (mergedPollNext ⟨⟨[Discv5Event.sessionEstablished ⟨[], some 4, none⟩ 0], [],
        PollNext.left, SelectInternalState.start⟩, ⟨false, false⟩⟩).sendOk = false ∧
    (mergedPollNext ⟨⟨[Discv5Event.sessionEstablished ⟨[], some 4, none⟩ 0], [],
        PollNext.left, SelectInternalState.start⟩, ⟨false, false⟩⟩).out
      = MPoll.ready (some (DiscoveryUpdateV5.V5
          (Discv5Event.sessionEstablished ⟨[], some 4, none⟩ 0))) :=
  C3_signal_then_emit _ ⟨[], some 4, none⟩ 0
    ⟨[], [], PollNext.right, SelectInternalState.start⟩ (by decide) (Or.inl rfl)

/-- One select poll only draws from its two source queues: the successor
queues are contained in the current ones, and a yielded item is an
element of the side it is tagged with. -/
theorem selectPoll_sources (s : SelState) :
    (∀ e, e ∈ (selectPoll s).2.left → e ∈ s.left) ∧
    (∀ v, v ∈ (selectPoll s).2.right → v ∈ s.right) ∧
    (∀ u, (selectPoll s).1 = some u →
      (∃ e, u = DiscoveryUpdateV5.V5 e ∧ e ∈ s.left) ∨
      (∃ v, u = DiscoveryUpdateV5.V4 v ∧ v ∈ s.right)) := by
  obtain ⟨L, R, last, internal⟩ := s
  cases internal <;> cases last <;> cases L <;> cases R <;>
    simp [selectPoll] <;>
    aesop

/-- A select poll that yields a discv5-tagged item consumed it from the
head of the discv5 queue and left the discv4 queue untouched. -/
theorem selectPoll_v5_consumes (s : SelState) (e : Discv5Event) (s1 : SelState)
    (h : selectPoll s = (some (DiscoveryUpdateV5.V5 e), s1)) :
    s.left = e :: s1.left ∧ s1.right = s.right := by
  obtain ⟨L, R, last, internal⟩ := s
  cases internal <;> cases last <;> cases L <;> cases R <;>
    simp [selectPoll] at h <;>
    aesop

/-- Every item the merged stream ever emits from a state is drawn from
that state's source queues, tagged with its side of origin. -/
theorem mergedOutputs_mem (n : Nat) :
    ∀ (st : MergedState) (u : DiscoveryUpdateV5), u ∈ mergedOutputs st n →
      (∃ e, u = DiscoveryUpdateV5.V5 e ∧ e ∈ st.sel.left) ∨
      (∃ v, u = DiscoveryUpdateV5.V4 v ∧ v ∈ st.sel.right) := by
  induction n with
  | zero =>
    intro st u hu
    simp [mergedOutputs] at hu
  | succ n ih =>
    intro st u hu
    have hsrc := selectPoll_sources st.sel
    cases hsel : selectPoll st.sel with
    | mk upd sel1 =>
      rw [hsel] at hsrc
      have hleft : ∀ e, e ∈ sel1.left → e ∈ st.sel.left := hsrc.1
      have hright : ∀ v, v ∈ sel1.right → v ∈ st.sel.right := hsrc.2.1
      have hyield := hsrc.2.2
      cases upd with
      | none =>
        simp [mergedOutputs, mergedPollNext, hsel] at hu
      | some u0 =>
        cases u0 with
        | V4 v =>
          simp [mergedOutputs, mergedPollNext, hsel] at hu
          rcases hu with rfl | hu
          · exact hyield _ rfl
          · rcases ih _ u hu with ⟨e, rfl, he⟩ | ⟨v1, rfl, hv⟩
            · exact Or.inl ⟨e, rfl, hleft e he⟩
            · exact Or.inr ⟨v1, rfl, hright v1 hv⟩
        | V5 ev =>
          cases ev with
          | otherEvent t =>
            simp [mergedOutputs, mergedPollNext, hsel] at hu
            rcases hu with rfl | hu
            · exact hyield _ rfl
            · rcases ih _ u hu with ⟨e, rfl, he⟩ | ⟨v1, rfl, hv⟩
              · exact Or.inl ⟨e, rfl, hleft e he⟩
              · exact Or.inr ⟨v1, rfl, hright v1 hv⟩
          | sessionEstablished enr socket =>
            by_cases hdef : enr.ip4 = none ∧ (enr.ip6).isSome = true
            · simp [mergedOutputs, mergedPollNext, hsel, hdef] at hu
              rcases ih _ u hu with ⟨e, rfl, he⟩ | ⟨v1, rfl, hv⟩
              · exact Or.inl ⟨e, rfl, hleft e he⟩
              · exact Or.inr ⟨v1, rfl, hright v1 hv⟩
            · simp [mergedOutputs, mergedPollNext, hsel, hdef] at hu
              rcases hu with rfl | hu
              · exact hyield _ rfl
              · rcases ih _ u hu with ⟨e, rfl, he⟩ | ⟨v1, rfl, hv⟩
                · exact Or.inl ⟨e, rfl, hleft e he⟩
                · exact Or.inr ⟨v1, rfl, hright v1 hv⟩

/-- C7: a session-established event taken in the deferral branch is
consumed from the head of the discv5 source on that poll, no
synchronization signal is sent for it, and — provided the source holds no
second identical occurrence — it is never returned by any later poll of
the merged stream: its payload is lost, not retried. -/
theorem C7_deferred_event_dropped (st : MergedState) (enr : Enr) (socket : Nat)
    (sel1 : SelState) (x : Nat)
    (h : selectPoll st.sel
      = (some (DiscoveryUpdateV5.V5 (Discv5Event.sessionEstablished enr socket)), sel1))
    (h4 : enr.ip4 = none) (h6 : enr.ip6 = some x)
    (hnodup : Discv5Event.sessionEstablished enr socket ∉ sel1.left) :
    st.sel.left = Discv5Event.sessionEstablished enr socket :: sel1.left ∧
    (mergedPollNext st).out = MPoll.pending ∧
    (mergedPollNext st).sendAttempts = 0 ∧
    (mergedPollNext st).next.sel = sel1 ∧
    ∀ n, DiscoveryUpdateV5.V5 (Discv5Event.sessionEstablished enr socket)
      ∉ mergedOutputs (mergedPollNext st).next n := by
  have hcons := selectPoll_v5_consumes st.sel _ sel1 h
  have hnext : (mergedPollNext st).next.sel = sel1 := by
    simp [mergedPollNext, h, h4, h6]
  refine ⟨hcons.1, ?_, ?_, hnext, ?_⟩
  · simp [mergedPollNext, h, h4, h6]
  · simp [mergedPollNext, h, h4, h6]
  · intro n hmem
    rcases mergedOutputs_mem n _ _ hmem with ⟨e, he, hin⟩ | ⟨v, hv, _⟩
    · rw [hnext] at hin
      have : e = Discv5Event.sessionEstablished enr socket := by
        injection he.symm
      rw [this] at hin
      exact hnodup hin
    · exact DiscoveryUpdateV5.noConfusion hv

/-- Witness for C7 at a concrete state: the deferred event is consumed
on the deferral poll and absent from all outputs of the following five
polls. -/
theorem C7_witness :
    (mergedPollNext ⟨⟨[Discv5Event.sessionEstablished ⟨[], none, some 1⟩ 0], [⟨7⟩],
        PollNext.left, SelectInternalState.start⟩, ⟨true, false⟩⟩).out = MPoll.pending ∧
    DiscoveryUpdateV5.V5 (Discv5Event.sessionEstablished ⟨[], none, some 1⟩ 0)
      ∉ mergedOutputs (mergedPollNext
          ⟨⟨[Discv5Event.sessionEstablished ⟨[], none, some 1⟩ 0], [⟨7⟩],
            PollNext.left, SelectInternalState.start⟩, ⟨true, false⟩⟩).next 5 :=
  ⟨(C7_deferred_event_dropped _ ⟨[], none, some 1⟩ 0
      ⟨[], [⟨7⟩], PollNext.right, SelectInternalState.start⟩ 1
      (by decide) rfl rfl (by decide)).2.1,
   (C7_deferred_event_dropped _ ⟨[], none, some 1⟩ 0
      ⟨[], [⟨7⟩], PollNext.right, SelectInternalState.start⟩ 1
      (by decide) rfl rfl (by decide)).2.2.2.2 5⟩

/-- Every emitted item is tagged with one side, so the two projections
partition the output list. -/
theorem length_eq_proj_lengths (o : List DiscoveryUpdateV5) :
    o.length = (o.filterMap projV5).length + (o.filterMap projV4).length := by
  induction o with
  | nil => simp
  | cons u o ih =>
    cases u <;> simp [projV5, projV4, ih] <;> omega

/-- After the discv5 side has terminated, the merged stream drains the
remaining discv4 queue in order. -/
theorem mergedOutputs_firstTerminated (R : List DiscoveryUpdate) :
    ∀ (fuel : Nat) (L : List Discv5Event) (last : PollNext) (w : WatchState),
      R.length ≤ fuel →
      mergedOutputs ⟨⟨L, R, last, SelectInternalState.firstStreamTerminated⟩, w⟩ fuel
        = R.map DiscoveryUpdateV5.V4 := by
  induction R with
  | nil =>
    intro fuel L last w _
    cases fuel with
    | zero => rfl
    | succ n => simp [mergedOutputs, mergedPollNext, selectPoll]
  | cons u R ih =>
    intro fuel L last w hlen
    cases fuel with
    | zero => simp at hlen
    | succ n =>
      have hstep :
          mergedOutputs ⟨⟨L, u :: R, last, SelectInternalState.firstStreamTerminated⟩, w⟩
              (n + 1)
            = DiscoveryUpdateV5.V4 u ::
              mergedOutputs ⟨⟨L, R, last, SelectInternalState.firstStreamTerminated⟩, w⟩ n := by
        simp [mergedOutputs, mergedPollNext, selectPoll]
      rw [hstep, ih n L last w (by simp at hlen; omega)]
      simp

/-- After the discv4 side has terminated, the merged stream drains the
remaining discv5 queue in order, provided no remaining event is in the
deferral branch. -/
theorem mergedOutputs_secondTerminated (L : List Discv5Event) :
    ∀ (fuel : Nat) (R : List DiscoveryUpdate) (last : PollNext) (w : WatchState),
      (∀ e ∈ L, deferred e = false) → L.length ≤ fuel →
      mergedOutputs ⟨⟨L, R, last, SelectInternalState.secondStreamTerminated⟩, w⟩ fuel
        = L.map DiscoveryUpdateV5.V5 := by
  induction L with
  | nil =>
    intro fuel R last w _ _
    cases fuel with
    | zero => rfl
    | succ n => simp [mergedOutputs, mergedPollNext, selectPoll]
  | cons e L ih =>
    intro fuel R last w hdef hlen
    cases fuel with
    | zero => simp at hlen
    | succ n =>
      have hde : deferred e = false := hdef e (List.mem_cons_self e L)
      have htail : ∀ e1 ∈ L, deferred e1 = false :=
        fun e1 h1 => hdef e1 (List.mem_cons_of_mem e h1)
      have hn : L.length ≤ n := by simp at hlen; omega
      obtain ⟨hr, sl⟩ := w
      cases e with
      | otherEvent t =>
        have hstep :
            mergedOutputs ⟨⟨Discv5Event.otherEvent t :: L, R, last,
                SelectInternalState.secondStreamTerminated⟩, ⟨hr, sl⟩⟩ (n + 1)
              = DiscoveryUpdateV5.V5 (Discv5Event.otherEvent t) ::
                mergedOutputs ⟨⟨L, R, last,
                  SelectInternalState.secondStreamTerminated⟩, ⟨hr, sl⟩⟩ n := by
          simp [mergedOutputs, mergedPollNext, selectPoll]
        rw [hstep, ih n R last ⟨hr, sl⟩ htail hn]
        simp
      | sessionEstablished enr sock =>
        have hcp : ¬(enr.ip4 = none ∧ (enr.ip6).isSome = true) := by
          rintro ⟨ha, hb⟩
          simp [deferred, ha] at hde
          rw [hde] at hb
          simp at hb
        cases hr with
        | true =>
          have hstep :
              mergedOutputs ⟨⟨Discv5Event.sessionEstablished enr sock :: L, R, last,
                  SelectInternalState.secondStreamTerminated⟩, ⟨true, sl⟩⟩ (n + 1)
                = DiscoveryUpdateV5.V5 (Discv5Event.sessionEstablished enr sock) ::
                  mergedOutputs ⟨⟨L, R, last,
                    SelectInternalState.secondStreamTerminated⟩, ⟨true, true⟩⟩ n := by
            simp [mergedOutputs, mergedPollNext, selectPoll, hcp, watchSend]
          rw [hstep, ih n R last ⟨true, true⟩ htail hn]
          simp
        | false =>
          have hstep :
              mergedOutputs ⟨⟨Discv5Event.sessionEstablished enr sock :: L, R, last,
                  SelectInternalState.secondStreamTerminated⟩, ⟨false, sl⟩⟩ (n + 1)
                = DiscoveryUpdateV5.V5 (Discv5Event.sessionEstablished enr sock) ::
                  mergedOutputs ⟨⟨L, R, last,
                    SelectInternalState.secondStreamTerminated⟩, ⟨false, sl⟩⟩ n := by
            simp [mergedOutputs, mergedPollNext, selectPoll, hcp, watchSend]
          rw [hstep, ih n R last ⟨false, sl⟩ htail hn]
          simp

/-- One poll from the start state preferring the non-empty discv5 side
emits its head (when not deferred) and flips the preference. -/
theorem mergedOutputs_start_left_cons (e : Discv5Event) (L : List Discv5Event)
    (R : List DiscoveryUpdate) (w : WatchState) (n : Nat)
    (hde : deferred e = false) :
    ∃ w1, mergedOutputs ⟨⟨e :: L, R, PollNext.left, SelectInternalState.start⟩, w⟩ (n + 1)
      = DiscoveryUpdateV5.V5 e ::
        mergedOutputs ⟨⟨L, R, PollNext.right, SelectInternalState.start⟩, w1⟩ n := by
  obtain ⟨hr, sl⟩ := w
  cases e with
  | otherEvent t =>
    exact ⟨⟨hr, sl⟩, by simp [mergedOutputs, mergedPollNext, selectPoll]⟩
  | sessionEstablished enr sock =>
    have hcp : ¬(enr.ip4 = none ∧ (enr.ip6).isSome = true) := by
      rintro ⟨ha, hb⟩
      simp [deferred, ha] at hde
      rw [hde] at hb
      simp at hb
    cases hr with
    | true =>
      exact ⟨⟨true, true⟩,
        by simp [mergedOutputs, mergedPollNext, selectPoll, hcp, watchSend]⟩
    | false =>
      exact ⟨⟨false, sl⟩,
        by simp [mergedOutputs, mergedPollNext, selectPoll, hcp, watchSend]⟩

/-- One poll from the start state preferring the non-empty discv4 side
emits its head and flips the preference. -/
theorem mergedOutputs_start_right_cons (L : List Discv5Event) (u : DiscoveryUpdate)
    (R : List DiscoveryUpdate) (w : WatchState) (n : Nat) :
    mergedOutputs ⟨⟨L, u :: R, PollNext.right, SelectInternalState.start⟩, w⟩ (n + 1)
      = DiscoveryUpdateV5.V4 u ::
        mergedOutputs ⟨⟨L, R, PollNext.left, SelectInternalState.start⟩, w⟩ n := by
  simp [mergedOutputs, mergedPollNext, selectPoll]

/-- One poll from the start state preferring an exhausted discv5 side
falls through to the discv4 side, marking the discv5 stream terminated. -/
theorem mergedOutputs_start_left_nil (u : DiscoveryUpdate) (R : List DiscoveryUpdate)
    (w : WatchState) (n : Nat) :
    mergedOutputs ⟨⟨[], u :: R, PollNext.left, SelectInternalState.start⟩, w⟩ (n + 1)
      = DiscoveryUpdateV5.V4 u ::
        mergedOutputs ⟨⟨[], R, PollNext.right,
          SelectInternalState.firstStreamTerminated⟩, w⟩ n := by
  simp [mergedOutputs, mergedPollNext, selectPoll]

/-- One poll from the start state preferring an exhausted discv4 side
falls through to the discv5 side (when its head is not deferred), marking
the discv4 stream terminated. -/
theorem mergedOutputs_start_right_nil (e : Discv5Event) (L : List Discv5Event)
    (w : WatchState) (n : Nat) (hde : deferred e = false) :
    ∃ w1, mergedOutputs ⟨⟨e :: L, [], PollNext.right, SelectInternalState.start⟩, w⟩ (n + 1)
      = DiscoveryUpdateV5.V5 e ::
        mergedOutputs ⟨⟨L, [], PollNext.left,
          SelectInternalState.secondStreamTerminated⟩, w1⟩ n := by
  obtain ⟨hr, sl⟩ := w
  cases e with
  | otherEvent t =>
    exact ⟨⟨hr, sl⟩, by simp [mergedOutputs, mergedPollNext, selectPoll]⟩
  | sessionEstablished enr sock =>
    have hcp : ¬(enr.ip4 = none ∧ (enr.ip6).isSome = true) := by
      rintro ⟨ha, hb⟩
      simp [deferred, ha] at hde
      rw [hde] at hb
      simp at hb
    cases hr with
    | true =>
      exact ⟨⟨true, true⟩,
        by simp [mergedOutputs, mergedPollNext, selectPoll, hcp, watchSend]⟩
    | false =>
      exact ⟨⟨false, sl⟩,
        by simp [mergedOutputs, mergedPollNext, selectPoll, hcp, watchSend]⟩

/-- With both sides exhausted the merged stream ends with no output. -/
theorem mergedOutputs_start_both_nil (last : PollNext) (w : WatchState) (n : Nat) :
    mergedOutputs ⟨⟨[], [], last, SelectInternalState.start⟩, w⟩ n = [] := by
  cases n with
  | zero => rfl
  | succ n => cases last <;> simp [mergedOutputs, mergedPollNext, selectPoll]

/-- From the start state with no deferral-branch event pending, the merged
stream emits, within a poll budget of the total queue length, exactly the
two queues: each side's projection of the output recovers that side's
queue in order. -/
theorem mergedOutputs_start (fuel : Nat) :
    ∀ (L : List Discv5Event) (R : List DiscoveryUpdate) (last : PollNext) (w : WatchState),
      (∀ e ∈ L, deferred e = false) → L.length + R.length ≤ fuel →
      (mergedOutputs ⟨⟨L, R, last, SelectInternalState.start⟩, w⟩ fuel).filterMap projV5
          = L ∧
      (mergedOutputs ⟨⟨L, R, last, SelectInternalState.start⟩, w⟩ fuel).filterMap projV4
          = R := by
  induction fuel with
  | zero =>
    intro L R last w _ hlen
    have hL : L = [] := by
      cases L with
      | nil => rfl
      | cons a b => simp at hlen
    have hR : R = [] := by
      cases R with
      | nil => rfl
      | cons a b => rw [hL] at hlen; simp at hlen
    subst hL
    subst hR
    simp [mergedOutputs]
  | succ n ih =>
    intro L R last w hdef hlen
    cases last with
    | left =>
      cases L with
      | cons e L1 =>
        have hde : deferred e = false := hdef e (List.mem_cons_self e L1)
        have htail : ∀ e1 ∈ L1, deferred e1 = false :=
          fun e1 h1 => hdef e1 (List.mem_cons_of_mem e h1)
        obtain ⟨w1, hstep⟩ := mergedOutputs_start_left_cons e L1 R w n hde
        have hrec := ih L1 R PollNext.right w1 htail (by simp at hlen; omega)
        rw [hstep]
        constructor
        · simp [projV5, hrec.1]
        · simp [projV4, hrec.2]
      | nil =>
        cases R with
        | cons u R1 =>
          rw [mergedOutputs_start_left_nil u R1 w n]
          rw [mergedOutputs_firstTerminated R1 n [] PollNext.right w
            (by simp at hlen; omega)]
          constructor
          · simp [projV5, Function.comp_def]
          · simp [projV4, Function.comp_def]
        | nil =>
          rw [mergedOutputs_start_both_nil]
          simp
    | right =>
      cases R with
      | cons u R1 =>
        rw [mergedOutputs_start_right_cons L u R1 w n]
        have hrec := ih L R1 PollNext.left w hdef (by simp at hlen; omega)
        constructor
        · simp [projV5, hrec.1]
        · simp [projV4, hrec.2]
      | nil =>
        cases L with
        | cons e L1 =>
          have hde : deferred e = false := hdef e (List.mem_cons_self e L1)
          have htail : ∀ e1 ∈ L1, deferred e1 = false :=
            fun e1 h1 => hdef e1 (List.mem_cons_of_mem e h1)
          obtain ⟨w1, hstep⟩ := mergedOutputs_start_right_nil e L1 w n hde
          rw [hstep]
          rw [mergedOutputs_secondTerminated L1 n [] PollNext.left w1 htail
            (by simp at hlen; omega)]
          constructor
          · simp [projV5, Function.comp_def]
          · simp [projV4, Function.comp_def]
        | nil =>
          rw [mergedOutputs_start_both_nil]
          simp

/-- C9 counterexample: with one event per source — the discv5 event in
the deferral branch — the merged stream terminates (the third poll
returns end-of-stream) having emitted only the discv4 event: the two
sources' 2 events are not all yielded. -/
theorem C9_counterexample :
    mergedOutputs ⟨⟨[Discv5Event.sessionEstablished ⟨[], none, some 1⟩ 0], [⟨7⟩],
        PollNext.left, SelectInternalState.start⟩, ⟨true, false⟩⟩ 5
      = [DiscoveryUpdateV5.V4 ⟨7⟩] ∧
    (mergedPollNext (mergedRunState
        ⟨⟨[Discv5Event.sessionEstablished ⟨[], none, some 1⟩ 0], [⟨7⟩],
          PollNext.left, SelectInternalState.start⟩, ⟨true, false⟩⟩ 2)).out
      = MPoll.ready none ∧
    DiscoveryUpdateV5.V5 (Discv5Event.sessionEstablished ⟨[], none, some 1⟩ 0)
      ∉ mergedOutputs ⟨⟨[Discv5Event.sessionEstablished ⟨[], none, some 1⟩ 0], [⟨7⟩],
          PollNext.left, SelectInternalState.start⟩, ⟨true, false⟩⟩ 5 := by
  refine ⟨by decide, by decide, by decide⟩

/-- C9 amended: for every pair of finite sources none of whose discv5
events is in the deferral branch, the merged stream started on the
default left preference yields, within a poll budget of the total event
count plus one, exactly all events of both sources — each source's
subsequence appearing in its original order — so all events are emitted
exactly once in a finite number of polls; deferral-branch events are
instead dropped, as the counterexample shows. -/
theorem C9_amended_merge_fairness (L : List Discv5Event) (R : List DiscoveryUpdate)
    (w : WatchState) (hdef : ∀ e ∈ L, deferred e = false) :
    (mergedOutputs ⟨⟨L, R, PollNext.left, SelectInternalState.start⟩, w⟩
        (L.length + R.length + 1)).filterMap projV5 = L ∧
    (mergedOutputs ⟨⟨L, R, PollNext.left, SelectInternalState.start⟩, w⟩
        (L.length + R.length + 1)).filterMap projV4 = R ∧
    (mergedOutputs ⟨⟨L, R, PollNext.left, SelectInternalState.start⟩, w⟩
        (L.length + R.length + 1)).length = L.length + R.length := by
  have h := mergedOutputs_start (L.length + R.length + 1) L R PollNext.left w hdef
    (by omega)
  refine ⟨h.1, h.2, ?_⟩
  rw [length_eq_proj_lengths, h.1, h.2]

/-- Witness for the amended C9 at concrete sources of one event each:
all two events are emitted, one per source, in source order. -/
theorem C9_amended_witness :
    (mergedOutputs ⟨⟨[Discv5Event.otherEvent 3], [⟨7⟩], PollNext.left,
        SelectInternalState.start⟩, ⟨true, false⟩⟩ 3).filterMap projV5
      = [Discv5Event.otherEvent 3] ∧
    (mergedOutputs ⟨⟨[Discv5Event.otherEvent 3], [⟨7⟩], PollNext.left,
        SelectInternalState.start⟩, ⟨true, false⟩⟩ 3).filterMap projV4
      = [⟨7⟩] ∧
    (mergedOutputs ⟨⟨[Discv5Event.otherEvent 3], [⟨7⟩], PollNext.left,
        SelectInternalState.start⟩, ⟨true, false⟩⟩ 3).length = 2 :=
  C9_amended_merge_fairness [Discv5Event.otherEvent 3] [⟨7⟩] ⟨true, false⟩ (by decide)

